import Mathlib

/-!
Verification of the synchronization and cache-policy engine of
`@datagraphics/delivery` (datadesk/delivery), a library that mirrors a local
directory tree into an S3-style object store.

The TypeScript sources (`src/index.ts`, `src/utils.ts`, `src/cache-headers.ts`)
are shallowly embedded below.  Asynchronous, effectful code is modelled by
pure functions over an explicit environment (`Env`) of collaborator results;
JavaScript exceptions become `Except JsErr`; the interleaving of the
concurrently running per-file tasks of a batch call is captured by a
completion schedule (`sched : List Nat`), the order in which the task
promises resolve.
-/

/-- A JavaScript error value as the library observes it: a `code` property
(`"NotFound"`, `"ENOENT"`, ...) plus an arbitrary message distinguishing
otherwise equal codes, so that "propagated unchanged" is meaningful. -/
structure JsErr where
  code : String
  message : String := ""
deriving DecidableEq, Repr

/-- JavaScript template-literal stringification of a possibly absent string:
`` `"${x}"` `` turns `undefined` into the text `undefined` (and `null` into
`null`; we use `undefined` as the representative absent value, which is the
one that actually flows through this library). -/
def jsTemplateStr : Option String → String
  | some s => s
  | none => "undefined"

/-- JavaScript truthiness of a possibly absent string: `undefined` and the
empty string are falsy, every other string is truthy. -/
def jsTruthyStr : Option String → Bool
  | some s => s != ""
  | none => false

/-- Models Node's `path.join` for the normalized, relative segments this
library passes it: empty segments are dropped, others joined with `/`. -/
def joinPath (a b : String) : String :=
  if a == "" then b else if b == "" then a else a ++ "/" ++ b

/-- `path.resolve` removes a trailing slash, so `path.relative` never
reports one: the relative form of a directory-marker key `"p/"` is `"p"`. -/
def stripTrailingSlash (s : String) : String :=
  if s.toList.getLast? == some '/' then { data := s.toList.dropLast } else s

/-- Models Node's `path.relative` for the calls this library makes (both
arguments resolved against the working directory, so trailing slashes are
stripped first): equal paths give the empty string, a base that is a path
prefix of the target is stripped, and an empty base leaves the (stripped)
target unchanged.  The `..`-producing case of unrelated paths is not
modelled — the library only ever passes a base that prefixes the target
(keys are listed under `join(basePath, prefix)`). -/
def relativePath (base target : String) : String :=
  let target := stripTrailingSlash target
  let base := stripTrailingSlash base
  if base == "" then target
  else if target == base then ""
  else if (base ++ "/").toList.isPrefixOf target.toList then
    { data := target.toList.drop (base.length + 1) }
  else target

/-- Models `resolvePath` from `src/utils.ts`: resolution against the current
working directory is abstracted away (all local paths are taken to be
already rooted at the working directory). -/
def resolvePath (p : String) : String := p

/-- From `src/cache-headers.ts`: the Cache-Control value forcing browsers to
revalidate on each request. -/
def requireRevalidation : String := "no-cache"

/-- From `src/cache-headers.ts`: the Cache-Control value for immutable,
long-lived assets. -/
def longLiveCache : String := "public, max-age=31536000, immutable"

/-- A lowercase hexadecimal digit, the character class `[0-9a-f]` of the
`hashRegExp` in `src/utils.ts`. -/
def isLowerHexDigit (c : Char) : Bool :=
  (('0' ≤ c && c ≤ '9') || ('a' ≤ c && c ≤ 'f'))

/-- Whether a character list starts with a period. -/
def charAtIsDot : List Char → Bool
  | c :: _ => c == '.'
  | [] => false

/-- Whether the regular expression `\.[0-9a-f]{8}\.` of `src/utils.ts`
matches at the head of the character list: a period, exactly eight lowercase
hex digits, then a period. -/
def hashTokenAt (cs : List Char) : Bool :=
  match cs with
  | [] => false
  | c :: rest =>
    (c == '.' && ((rest.take 8).length == 8 && (rest.take 8).all isLowerHexDigit))
      && charAtIsDot (rest.drop 8)

/-- Unanchored `RegExp.test` of `hashRegExp`: a match may start at any
position of the string. -/
def hashRegExpTest (cs : List Char) : Bool :=
  match cs with
  | [] => false
  | _ :: rest => hashTokenAt cs || hashRegExpTest rest

/-- From `src/utils.ts`: the default predicate deciding whether a file path
shows signs of containing a content hash (`hashRegExp.test(path)`). -/
def defaultShouldBeCached (path : String) : Bool :=
  hashRegExpTest path.toList

/-- What `downloadFile` and `downloadFiles` return (`src/index.ts`). -/
structure DownloadOutput where
  Key : String
  isIdentical : Bool
deriving DecidableEq, Repr

/-- What `uploadFile` and `uploadFiles` return (`src/index.ts`). -/
structure UploadOutput where
  ETag : String
  Key : String
  isIdentical : Bool
  isPublic : Bool
  size : Nat
deriving DecidableEq, Repr

/-- The `S3.PutObjectRequest` the library builds: the `Body` stream is
represented by the md5 of the bytes it will produce (the content identity of
the local file). -/
structure PutParams where
  Bucket : Option String
  ACL : String
  ContentType : String
  Key : String
  CacheControl : Option String := none
  bodyMd5 : String
deriving DecidableEq, Repr

/-- One entry of an `S3.listObjectsV2` response's `Contents`: both fields
are optional in the SDK's types. -/
structure S3Object where
  Key : Option String
  ETag : Option String
deriving DecidableEq, Repr

/-- One entry of the `findFiles` enumeration of a local directory
(`src/utils.ts`): the absolute file path and its path relative to the
directory root. -/
structure FileEntry where
  file : String
  dest : String
deriving DecidableEq, Repr

/-- Events emitted on the download side (`download`, `download:all`). -/
inductive Event where
  | download (o : DownloadOutput)
  | downloadAll (outs : List DownloadOutput)
deriving DecidableEq, Repr

/-- Events emitted on the upload side (`upload`, `upload:all`). -/
inductive UpEvent where
  | upload (o : UploadOutput)
  | uploadAll (outs : List UploadOutput)
deriving DecidableEq, Repr

/-- The external collaborators (local filesystem, md5 hashing, mime lookup,
S3 client) as result-valued functions.  A `.error` result is a rejected
promise / thrown exception of that collaborator. -/
structure Env where
  stat : String → Except JsErr Nat
  md5FromFile : String → Except JsErr String
  mimeGetType : String → Option String
  headObject : String → Except JsErr (Option String)
  putObject : PutParams → Except JsErr Unit
  getObject : String → Except JsErr String
  listObjectsV2 : String → Except JsErr (Option (List S3Object))

/-- The state a constructed `Delivery` instance holds (`src/index.ts`).
`bucket` is `Option` because at runtime JavaScript lets the property be
absent even though TypeScript's types require it. -/
structure Delivery where
  bucket : Option String
  basePath : String
  useAccelerateEndpoint : Bool
  shouldBeCached : String → Bool

/-- The runtime options object passed to `new Delivery({...})`; every
property may be absent at runtime. -/
structure DeliveryOptions where
  bucket : Option String
  basePath : Option String
  useAccelerateEndpoint : Option Bool
  shouldBeCached : Option (String → Bool)

/-- The `Delivery` constructor (`src/index.ts` lines 77-104): destructures
the options with defaults (`basePath = ''`, `useAccelerateEndpoint = false`,
`shouldBeCached = defaultShouldBeCached`) and stores them.  It performs no
validation and cannot fail. -/
def deliveryConstructor (o : DeliveryOptions) : Delivery :=
  { bucket := o.bucket
    basePath := o.basePath.getD ""
    useAccelerateEndpoint := o.useAccelerateEndpoint.getD false
    shouldBeCached := o.shouldBeCached.getD defaultShouldBeCached }

/-- `Delivery.getS3ObjectETag` (`src/index.ts` lines 363-382): a `NotFound`
error from `headObject` becomes the absent token `none`; any other error is
rethrown; a successful response yields its (possibly absent) `ETag`. -/
def getS3ObjectETag (env : Env) (Key : String) : Except JsErr (Option String) :=
  match env.headObject Key with
  | .ok e => .ok e
  | .error err => if err.code == "NotFound" then .ok none else .error err

/-- `Delivery.isFileIdenticaltoS3File` (`src/index.ts` lines 392-405),
translated statement by statement: the local ETag is first reassigned to its
quote-wrapped stringification (so it is never null afterwards — the
subsequent null check on it is dead, exactly as in the source), then the
null check runs, then strict string equality. -/
def isFileIdenticaltoS3File (localETag s3ETag : Option String) : Bool :=
  let localETag : Option String := some ("\"" ++ jsTemplateStr localETag ++ "\"")
  if localETag == none || s3ETag == none then false
  else localETag == s3ETag

/-- The Cache-Control selection logic inlined in `Delivery.uploadFile`
(`src/index.ts` lines 171-183).  Note `if (cacheControlOverride)` is a JS
truthiness test: an empty-string override is falsy and falls through. -/
def resolveCacheControl (shouldBeCached : String → Bool) (shouldCache : Bool)
    (cacheControlOverride : Option String) (ContentType path : String) :
    Option String :=
  if shouldCache then
    if jsTruthyStr cacheControlOverride then cacheControlOverride
    else if ContentType == "text/html" then some requireRevalidation
    else if shouldBeCached path then some longLiveCache
    else none
  else none

/-- Options of `uploadFile` / `uploadFiles`, with the source's defaults. -/
structure UploadOptions where
  isPublic : Bool := false
  shouldCache : Bool := false
  cacheControlOverride : Option String := none
deriving Repr

/-- `Delivery.uploadFile` (`src/index.ts` lines 126-207).  Returns the
outcome together with the list of `putObject` requests issued (at most
one).  Step order follows the source: key join, `fs.stat`, mime lookup,
ACL, md5, remote ETag fetch, identity test, then the conditional write. -/
def Delivery.uploadFile (d : Delivery) (env : Env) (file path : String)
    (opts : UploadOptions) : Except JsErr (UploadOutput × List PutParams) :=
  let Key := joinPath d.basePath path
  match env.stat file with
  | .error e => .error e
  | .ok size =>
    let ContentType := (env.mimeGetType file).getD "application/octet-stream"
    let ACL := if opts.isPublic then "public-read" else "private"
    match env.md5FromFile file with
    | .error e => .error e
    | .ok ETag =>
      match getS3ObjectETag env Key with
      | .error e => .error e
      | .ok s3ETag =>
        let isIdentical := isFileIdenticaltoS3File (some ETag) s3ETag
        if isIdentical then
          .ok ({ ETag := ETag, Key := Key, isIdentical := isIdentical,
                 isPublic := opts.isPublic, size := size }, [])
        else
          let params : PutParams :=
            { Bucket := d.bucket, ACL := ACL, ContentType := ContentType,
              Key := Key,
              CacheControl := resolveCacheControl d.shouldBeCached
                opts.shouldCache opts.cacheControlOverride ContentType path,
              bodyMd5 := ETag }
          match env.putObject params with
          | .error e => .error e
          | .ok _ =>
            .ok ({ ETag := ETag, Key := Key, isIdentical := isIdentical,
                   isPublic := opts.isPublic, size := size }, [params])

/-- `Delivery.downloadFile` (`src/index.ts` lines 272-313).  Returns the
outcome together with the list of keys fetched via `getObject` (at most
one).  `if (!s3ETag)` is a JS truthiness test.  A local `md5FromFile`
rejection with code `ENOENT` is mapped to `isIdentical = false`; any other
rejection is rethrown. -/
def Delivery.downloadFile (d : Delivery) (env : Env) (path dest : String)
    (s3ETag0 : Option String) : Except JsErr (DownloadOutput × List String) :=
  let Key := joinPath d.basePath path
  let fetched : Except JsErr (Option String) :=
    if jsTruthyStr s3ETag0 then .ok s3ETag0 else getS3ObjectETag env Key
  match fetched with
  | .error e => .error e
  | .ok s3ETag =>
    let idRes : Except JsErr Bool :=
      match env.md5FromFile dest with
      | .ok hash => .ok (isFileIdenticaltoS3File (some hash) s3ETag)
      | .error err => if err.code == "ENOENT" then .ok false else .error err
    match idRes with
    | .error e => .error e
    | .ok isIdentical =>
      if isIdentical then
        .ok ({ Key := Key, isIdentical := isIdentical }, [])
      else
        match env.getObject Key with
        | .error e => .error e
        | .ok _body =>
          .ok ({ Key := Key, isIdentical := isIdentical }, [Key])

/-- The value of a fulfilled task, `none` for a rejected one. -/
def exceptOk : Except JsErr α → Option α
  | .ok a => some a
  | .error _ => none

/-- The first rejection among concurrently running tasks, in completion
order: `sched` lists task indices in the order their promises settle, and
`Promise.all` rejects with the earliest rejection in that order. -/
def firstErrorIn (sched : List Nat) (tasks : List (Except JsErr α)) :
    Option JsErr :=
  sched.findSome? fun i =>
    match tasks[i]? with
    | some (Except.error e) => some e
    | _ => none

/-- The outcome a fulfilled upload task contributes to `Promise.all`'s
result array (`none` for a rejected task). -/
def uploadOutcome? (t : Except JsErr (UploadOutput × List PutParams)) :
    Option UploadOutput :=
  (exceptOk t).map Prod.fst

/-- The outcome a fulfilled download task pushes (`none` for a rejected
task or for a skipped null-key entry). -/
def downloadOutcome? (t : Except JsErr (Option (DownloadOutput × List String))) :
    Option DownloadOutput :=
  (exceptOk t).bind fun o? => o?.map Prod.fst

/-- The per-file tasks dispatched by `uploadFiles`: one `uploadFile` call
per enumerated file, keyed by `join(prefix, dest)`. -/
def Delivery.uploadTasks (d : Delivery) (env : Env) (files : List FileEntry)
    (pfix : String) (opts : UploadOptions) :
    List (Except JsErr (UploadOutput × List PutParams)) :=
  files.map fun fe => d.uploadFile env fe.file (joinPath pfix fe.dest) opts

/-- `Delivery.uploadFiles` (`src/index.ts` lines 229-257): dispatch all
tasks, `Promise.all` them (rejecting with the first rejection in completion
order, otherwise collecting the fulfilled values positionally), then emit
the per-file events (in completion order) and one `upload:all` event. -/
def Delivery.uploadFiles (d : Delivery) (env : Env) (sched : List Nat)
    (files : List FileEntry) (pfix : String) (opts : UploadOptions) :
    Except JsErr (List UploadOutput × List UpEvent) :=
  let tasks := d.uploadTasks env files pfix opts
  match firstErrorIn sched tasks with
  | some e => .error e
  | none =>
    let outs := tasks.filterMap uploadOutcome?
    let perFile := sched.filterMap fun i =>
      (tasks[i]?.bind uploadOutcome?).map UpEvent.upload
    .ok (outs, perFile ++ [UpEvent.uploadAll outs])

/-- The per-entry task of `downloadFiles` (`src/index.ts` lines 338-349):
an entry with an absent `Key` returns immediately (`.ok none`, nothing
pushed); otherwise `downloadFile` runs with the listing's ETag and its
outcome will be pushed. -/
def Delivery.downloadTask (d : Delivery) (env : Env) (pfix dest : String)
    (obj : S3Object) : Except JsErr (Option (DownloadOutput × List String)) :=
  match obj.Key with
  | none => .ok none
  | some k =>
    let Key := relativePath d.basePath k
    (d.downloadFile env Key (joinPath dest (relativePath pfix Key))
      obj.ETag).map some

/-- `Delivery.downloadFiles` (`src/index.ts` lines 326-355): list the
remote objects under the joined prefix, dispatch one task per entry, and —
because each task does `downloadedFiles.push(await ...)` — collect the
outcomes in completion order (`sched`), not listing order.  An absent
`Contents` behaves like an empty one.  Emits one `download` event per
pushed outcome and one `download:all` event with the collected list. -/
def Delivery.downloadFiles (d : Delivery) (env : Env) (sched : List Nat)
    (pfix dir : String) : Except JsErr (List DownloadOutput × List Event) :=
  let dest := resolvePath dir
  let Pfix := joinPath d.basePath pfix
  match env.listObjectsV2 Pfix with
  | .error e => .error e
  | .ok contents? =>
    let tasks := (contents?.getD []).map (d.downloadTask env pfix dest)
    match firstErrorIn sched tasks with
    | some e => .error e
    | none =>
      let outs := sched.filterMap fun i => tasks[i]?.bind downloadOutcome?
      .ok (outs, outs.map Event.download ++ [Event.downloadAll outs])

/-- The remote store's persistent state: each key's stored integrity token
(already in the store's quoted representation), if the key exists. -/
def Store := String → Option String

/-- The store's quoting convention: the integrity token S3 reports for a
simple put is the md5 of the body wrapped in double quotes (the format
contract of the external store). -/
def wrapETag (h : String) : String := "\"" ++ h ++ "\""

/-- `headObject` against a `Store`: an existing key answers with its token,
a missing key rejects with code `NotFound` (the external S3 behavior). -/
def storeHead (s : Store) (k : String) : Except JsErr (Option String) :=
  match s k with
  | some t => .ok (some t)
  | none => .error { code := "NotFound" }

/-- The store state after a `putObject`: the written key now answers with
the quoted md5 of the body written to it. -/
def applyPut (s : Store) (p : PutParams) : Store :=
  fun k => if k == p.Key then some (wrapETag p.bodyMd5) else s k

/-- An environment whose S3 half is backed by a `Store` state `s` (puts
always succeed; the state change is read off the returned `PutParams` via
`applyPut`). -/
def mkStoreEnv (stat : String → Except JsErr Nat)
    (md5 : String → Except JsErr String) (mt : String → Option String)
    (s : Store) : Env :=
  { stat := stat
    md5FromFile := md5
    mimeGetType := mt
    headObject := storeHead s
    putObject := fun _ => .ok ()
    getObject := fun k =>
      match s k with
      | some _ => .ok k
      | none => .error { code := "NoSuchKey" }
    listObjectsV2 := fun _ => .ok none }

/-- Spec-side cache-policy resolver, written from the amended claim's
words: no caching requested means no directive even with an override; a
provided *non-empty* override is used literally; an empty-string override
is ignored and resolution falls through to the HTML rule, then the
classifier rule, then no directive. -/
def cachePolicyAmended (classify : String → Bool) (shouldCache : Bool)
    (ov : Option String) (ct path : String) : Option String :=
  if shouldCache = false then none
  else
    match ov with
    | some s =>
      if s ≠ "" then some s
      else if ct = "text/html" then some requireRevalidation
      else if classify path then some longLiveCache
      else none
    | none =>
      if ct = "text/html" then some requireRevalidation
      else if classify path then some longLiveCache
      else none

/-! ### Helper lemmas -/

theorem isFileIdentical_none_right (l : Option String) :
    isFileIdenticaltoS3File l none = false := rfl

theorem isFileIdentical_some_some (l s : String) :
    isFileIdenticaltoS3File (some l) (some s) = (wrapETag l == s) := rfl

theorem getS3ObjectETag_store (stat : String → Except JsErr Nat)
    (md5 : String → Except JsErr String) (mt : String → Option String)
    (s : Store) (k : String) :
    getS3ObjectETag (mkStoreEnv stat md5 mt s) k = .ok (s k) := by
  cases hs : s k <;> simp [getS3ObjectETag, mkStoreEnv, storeHead, hs]

theorem filterMap_none_eq_nil (l : List α) :
    l.filterMap (fun _ => (none : Option β)) = [] := by
  simp

theorem getS3ObjectETag_storeHead (env : Env) (s : Store) (k : String)
    (henv : env.headObject = storeHead s) :
    getS3ObjectETag env k = .ok (s k) := by
  cases hs : s k <;> simp [getS3ObjectETag, henv, storeHead, hs]

theorem firstErrorIn_nil (sched : List Nat) :
    firstErrorIn sched ([] : List (Except JsErr α)) = none := by
  apply List.findSome?_eq_none_iff.mpr
  intro i _
  rfl

/-! ### C1: idempotence of uploadFile against the store -/

/-- C1: uploading the same unchanged file twice to the same key performs
exactly one store write — the first call (remote token absent or different)
issues exactly one `putObject`, and the second call, seeing the wrapped
local fingerprint equal to the stored token, issues none, returning
`isIdentical = true` together with the file's size, ETag and public flag. -/
theorem uploadFile_idempotent_second_call_skips
    (d : Delivery) (stat : String → Except JsErr Nat)
    (md5 : String → Except JsErr String) (mt : String → Option String)
    (s : Store) (file path h : String) (sz : Nat) (opts : UploadOptions)
    (hstat : stat file = .ok sz) (hmd5 : md5 file = .ok h)
    (hdiff : s (joinPath d.basePath path) ≠ some (wrapETag h)) :
    ∃ out1 p,
      d.uploadFile (mkStoreEnv stat md5 mt s) file path opts = .ok (out1, [p]) ∧
      p.Key = joinPath d.basePath path ∧ p.bodyMd5 = h ∧
      out1.isIdentical = false ∧
      d.uploadFile (mkStoreEnv stat md5 mt (applyPut s p)) file path opts =
        .ok ({ ETag := h, Key := joinPath d.basePath path, isIdentical := true,
               isPublic := opts.isPublic, size := sz }, []) := by
  have hid : isFileIdenticaltoS3File (some h) (s (joinPath d.basePath path)) = false := by
    cases hs : s (joinPath d.basePath path) with
    | none => exact isFileIdentical_none_right _
    | some t =>
      rw [isFileIdentical_some_some]
      exact beq_eq_false_iff_ne.mpr fun he => hdiff (by rw [hs, he])
  refine ⟨{ ETag := h, Key := joinPath d.basePath path, isIdentical := false,
            isPublic := opts.isPublic, size := sz },
          { Bucket := d.bucket,
            ACL := if opts.isPublic then "public-read" else "private",
            ContentType := (mt file).getD "application/octet-stream",
            Key := joinPath d.basePath path,
            CacheControl := resolveCacheControl d.shouldBeCached opts.shouldCache
              opts.cacheControlOverride ((mt file).getD "application/octet-stream") path,
            bodyMd5 := h }, ?_, rfl, rfl, rfl, ?_⟩
  · simp only [Delivery.uploadFile, mkStoreEnv, hstat, hmd5]
    rw [getS3ObjectETag_storeHead _ _ _ rfl]
    simp [hid]
  · simp only [Delivery.uploadFile, mkStoreEnv, hstat, hmd5]
    rw [getS3ObjectETag_storeHead _ _ _ rfl]
    simp [applyPut, isFileIdentical_some_some]

/-- A concrete Delivery instance used by witnesses. -/
def dW : Delivery :=
  { bucket := some "bucket", basePath := "", useAccelerateEndpoint := false,
    shouldBeCached := defaultShouldBeCached }

/-- A concrete stat collaborator used by witnesses. -/
def statW : String → Except JsErr Nat := fun _ => .ok 5

/-- A concrete md5 collaborator used by witnesses. -/
def md5W : String → Except JsErr String := fun _ => .ok "h1"

/-- A concrete mime lookup used by witnesses. -/
def mtW : String → Option String := fun _ => some "text/css"

/-- A store holding no objects. -/
def emptyStore : Store := fun _ => none

/-- Witness for C1: a concrete first upload (fresh store) followed by a
second upload of the unchanged file. -/
theorem uploadFile_idempotent_second_call_skips_witness :
    ∃ out1 p,
      dW.uploadFile (mkStoreEnv statW md5W mtW emptyStore) "f.css" "f.css" {} =
        .ok (out1, [p]) ∧
      p.Key = joinPath dW.basePath "f.css" ∧ p.bodyMd5 = "h1" ∧
      out1.isIdentical = false ∧
      dW.uploadFile (mkStoreEnv statW md5W mtW (applyPut emptyStore p)) "f.css"
          "f.css" {} =
        .ok ({ ETag := "h1", Key := joinPath dW.basePath "f.css",
               isIdentical := true, isPublic := false, size := 5 }, []) :=
  uploadFile_idempotent_second_call_skips dW statW md5W mtW emptyStore
    "f.css" "f.css" "h1" 5 {} rfl rfl (by simp [emptyStore])

/-! ### C3: cache-policy resolution order -/

/-- C3 counterexample: with `shouldCache = true` and the override provided
as the empty string, the claim says the empty string is used as the literal
directive; the code's JS truthiness test ignores it and falls through to
the HTML rule instead. -/
theorem resolveCacheControl_empty_override_not_used :
    resolveCacheControl defaultShouldBeCached true (some "") "text/html"
      "page.html" ≠ some "" := by
  decide

/-- C3 amended: cache-policy resolution is first-match-wins in the order:
no caching requested → no directive (override included); provided
*non-empty* override → that literal value (an empty-string override is
ignored by the JS truthiness test and falls through); `text/html` →
revalidation; classifier accepts → long-lived; otherwise no directive. -/
theorem resolveCacheControl_order (classify : String → Bool)
    (shouldCache : Bool) (ov : Option String) (ct path : String) :
    resolveCacheControl classify shouldCache ov ct path =
      cachePolicyAmended classify shouldCache ov ct path := by
  cases shouldCache <;> cases ov <;>
    simp [resolveCacheControl, cachePolicyAmended, jsTruthyStr, bne_iff_ne]

/-! ### C4: identity comparison and absent fingerprints -/

/-- C4: the claim (and the code's own comment) says `isFileIdenticaltoS3File`
returns false whenever either fingerprint is absent.  The remote half holds,
but the local half is broken: the code wraps the local value in quotes
*before* the null check, so an absent local fingerprint becomes the string
`"undefined"` and can compare equal to a store token — the function returns
true at this input. -/
theorem isFileIdenticaltoS3File_absent_local_compares_true :
    isFileIdenticaltoS3File (some "abc") none = false ∧
    isFileIdenticaltoS3File none (some "\"undefined\"") = true :=
  ⟨rfl, rfl⟩

/-! ### C5: the default path classifier -/

/-- C5 counterexample: the classifier requires the 8 lowercase hex digits to
be bounded by periods, not by arbitrary separators; the slash-bounded token
in `/x/deadbeef/file.js` is rejected and cache resolution yields no
directive instead of the long-lived one. -/
theorem defaultShouldBeCached_slash_bounded_token_rejected :
    defaultShouldBeCached "/x/deadbeef/file.js" = false ∧
    resolveCacheControl defaultShouldBeCached true none "application/javascript"
      "/x/deadbeef/file.js" = none := by
  exact ⟨rfl, rfl⟩

theorem charAtIsDot_iff (cs : List Char) :
    charAtIsDot cs = true ↔ ∃ r, cs = '.' :: r := by
  cases cs with
  | nil => simp [charAtIsDot]
  | cons c r =>
    simp only [charAtIsDot, beq_iff_eq]
    constructor
    · rintro rfl; exact ⟨r, rfl⟩
    · rintro ⟨r', hr⟩; cases hr; rfl

theorem hashTokenAt_iff (cs : List Char) :
    hashTokenAt cs = true ↔
      ∃ tok r, cs = '.' :: (tok ++ '.' :: r) ∧ tok.length = 8 ∧
        tok.all isLowerHexDigit = true := by
  cases cs with
  | nil =>
    simp only [hashTokenAt]
    constructor
    · intro h; exact absurd h (by decide)
    · rintro ⟨tok, r, hr, -, -⟩; cases hr
  | cons c rest =>
    simp only [hashTokenAt, Bool.and_eq_true, beq_iff_eq, charAtIsDot_iff]
    constructor
    · rintro ⟨⟨rfl, hlen, hall⟩, r, hdrop⟩
      refine ⟨rest.take 8, r, ?_, hlen, hall⟩
      rw [← hdrop, List.take_append_drop]
    · rintro ⟨tok, r, hr, hlen, hall⟩
      obtain ⟨rfl, rfl⟩ : c = '.' ∧ rest = tok ++ '.' :: r := by
        cases hr; exact ⟨rfl, rfl⟩
      rw [List.take_left' hlen, List.drop_left' hlen]
      exact ⟨⟨rfl, hlen, hall⟩, r, rfl⟩

theorem hashRegExpTest_iff (cs : List Char) :
    hashRegExpTest cs = true ↔
      ∃ l tok r, cs = l ++ '.' :: (tok ++ '.' :: r) ∧ tok.length = 8 ∧
        tok.all isLowerHexDigit = true := by
  induction cs with
  | nil =>
    simp only [hashRegExpTest]
    constructor
    · intro h; exact absurd h (by decide)
    · rintro ⟨l, tok, r, hr, -, -⟩
      cases l <;> simp at hr
  | cons c rest ih =>
    simp only [hashRegExpTest, Bool.or_eq_true, ih, hashTokenAt_iff]
    constructor
    · rintro (⟨tok, r, hcs, hlen, hall⟩ | ⟨l, tok, r, hcs, hlen, hall⟩)
      · exact ⟨[], tok, r, by simp [hcs], hlen, hall⟩
      · exact ⟨c :: l, tok, r, by simp [hcs], hlen, hall⟩
    · rintro ⟨l, tok, r, hcs, hlen, hall⟩
      cases l with
      | nil =>
        left
        obtain ⟨rfl, rfl⟩ : c = '.' ∧ rest = tok ++ '.' :: r := by
          rw [List.nil_append] at hcs; cases hcs; exact ⟨rfl, rfl⟩
        exact ⟨tok, r, rfl, hlen, hall⟩
      | cons x l =>
        right
        obtain ⟨rfl, rfl⟩ : c = x ∧ rest = l ++ '.' :: (tok ++ '.' :: r) := by
          rw [List.cons_append] at hcs; cases hcs; exact ⟨rfl, rfl⟩
        exact ⟨l, tok, r, rfl, hlen, hall⟩

/-- C5 amended: the default classifier accepts exactly the paths containing
a period, then exactly eight lowercase hexadecimal digits, then a period
(the bounding separators are specifically `.`, not `/`); a dot-bounded
hashed name such as `dist/a.deadbeef.js` with a non-HTML type and
`shouldCache = true` yields the long-lived directive. -/
theorem defaultShouldBeCached_characterization :
    (∀ p : String, defaultShouldBeCached p = true ↔
      ∃ l tok r, p.toList = l ++ '.' :: (tok ++ '.' :: r) ∧ tok.length = 8 ∧
        tok.all isLowerHexDigit = true) ∧
    resolveCacheControl defaultShouldBeCached true none "application/javascript"
      "dist/a.deadbeef.js" = some longLiveCache :=
  ⟨fun _ => hashRegExpTest_iff _, rfl⟩

/-! ### C6: absence is never an error -/

theorem joinPath_empty_left (b : String) : joinPath "" b = b := rfl

/-- C6: `getS3ObjectETag` maps a `NotFound` store error to the absent token
and propagates every other store error unchanged; `downloadFile` maps a
missing local destination (`ENOENT`) to `isIdentical = false` and proceeds
to fetch the object (so a download to a fresh destination succeeds and
reports `isIdentical = false`), while any other local read error
propagates unchanged. -/
theorem absence_is_not_an_error :
    (∀ (env : Env) (Key m : String),
       env.headObject Key = .error { code := "NotFound", message := m } →
       getS3ObjectETag env Key = .ok none) ∧
    (∀ (env : Env) (Key : String) (e : JsErr),
       env.headObject Key = .error e → e.code ≠ "NotFound" →
       getS3ObjectETag env Key = .error e) ∧
    (∀ (d : Delivery) (env : Env) (path dest tok m body : String),
       tok ≠ "" →
       env.md5FromFile dest = .error { code := "ENOENT", message := m } →
       env.getObject (joinPath d.basePath path) = .ok body →
       d.downloadFile env path dest (some tok) =
         .ok ({ Key := joinPath d.basePath path, isIdentical := false },
              [joinPath d.basePath path])) ∧
    (∀ (d : Delivery) (env : Env) (path dest tok : String) (e : JsErr),
       tok ≠ "" →
       env.md5FromFile dest = .error e → e.code ≠ "ENOENT" →
       d.downloadFile env path dest (some tok) = .error e) := by
  refine ⟨?_, ?_, ?_, ?_⟩
  · intro env Key m h
    simp [getS3ObjectETag, h]
  · intro env Key e h hne
    simp [getS3ObjectETag, h, hne]
  · intro d env path dest tok m body htok hmd5 hget
    simp [Delivery.downloadFile, jsTruthyStr, bne_iff_ne, htok, hmd5, hget]
  · intro d env path dest tok e htok hmd5 hne
    simp [Delivery.downloadFile, jsTruthyStr, bne_iff_ne, htok, hmd5, hne]

/-- An environment where the remote object is absent and local reads fail
with `ENOENT`. -/
def envNF : Env :=
  { stat := fun _ => .ok 0
    md5FromFile := fun _ => .error { code := "ENOENT" }
    mimeGetType := fun _ => none
    headObject := fun _ => .error { code := "NotFound" }
    putObject := fun _ => .ok ()
    getObject := fun k => .ok k
    listObjectsV2 := fun _ => .ok none }

/-- An environment where the store denies access and local reads fail with
a non-`ENOENT` error. -/
def envDenied : Env :=
  { envNF with
    headObject := fun _ => .error { code := "AccessDenied" }
    md5FromFile := fun _ => .error { code := "EACCES" } }

/-- Witness for C6 at concrete inputs. -/
theorem absence_is_not_an_error_witness :
    getS3ObjectETag envNF "k" = .ok none ∧
    getS3ObjectETag envDenied "k" = .error { code := "AccessDenied" } ∧
    dW.downloadFile envNF "a.json" "dl/a.json" (some "\"t\"") =
      .ok ({ Key := joinPath dW.basePath "a.json", isIdentical := false },
           [joinPath dW.basePath "a.json"]) ∧
    dW.downloadFile envDenied "a.json" "dl/a.json" (some "\"t\"") =
      .error { code := "EACCES" } :=
  ⟨absence_is_not_an_error.1 envNF "k" "" rfl,
   absence_is_not_an_error.2.1 envDenied "k" _ rfl (by decide),
   absence_is_not_an_error.2.2.1 dW envNF "a.json" "dl/a.json" "\"t\"" ""
     (joinPath dW.basePath "a.json") (by decide) rfl rfl,
   absence_is_not_an_error.2.2.2 dW envDenied "a.json" "dl/a.json" "\"t\"" _
     (by decide) rfl (by decide)⟩

/-! ### C8: construction-time validation -/

/-- C8 counterexample: constructing a Delivery with every option absent —
in particular a missing bucket — does not fail; it returns an instance with
`bucket = none` and the defaults filled in, so no configuration error is
raised at construction time. -/
theorem deliveryConstructor_missing_bucket_succeeds :
    deliveryConstructor
        { bucket := none, basePath := none, useAccelerateEndpoint := none,
          shouldBeCached := none } =
      { bucket := none, basePath := "", useAccelerateEndpoint := false,
        shouldBeCached := defaultShouldBeCached } := rfl

/-- C8 amended: the constructor performs no runtime validation and always
succeeds, merely storing the options with their defaults; a missing bucket
is enforced only by TypeScript's static types, and at runtime it flows into
the transfer-time `putObject` request (`Bucket = none`) instead of failing
at construction. -/
theorem deliveryConstructor_total_no_validation :
    (∀ o : DeliveryOptions,
       deliveryConstructor o =
         { bucket := o.bucket, basePath := o.basePath.getD "",
           useAccelerateEndpoint := o.useAccelerateEndpoint.getD false,
           shouldBeCached := o.shouldBeCached.getD defaultShouldBeCached }) ∧
    (∀ (env : Env) (file path m h : String) (sz : Nat) (opts : UploadOptions),
       env.stat file = .ok sz → env.md5FromFile file = .ok h →
       env.headObject path = .error { code := "NotFound", message := m } →
       (∀ q, env.putObject q = .ok ()) →
       ∃ out p,
         (deliveryConstructor
             { bucket := none, basePath := none, useAccelerateEndpoint := none,
               shouldBeCached := none }).uploadFile env file path opts =
           .ok (out, [p]) ∧ p.Bucket = none) := by
  refine ⟨fun o => rfl, ?_⟩
  intro env file path m h sz opts hstat hmd5 hhead hput
  refine ⟨{ ETag := h, Key := path, isIdentical := false,
            isPublic := opts.isPublic, size := sz },
          { Bucket := none,
            ACL := if opts.isPublic then "public-read" else "private",
            ContentType := (env.mimeGetType file).getD "application/octet-stream",
            Key := path,
            CacheControl := resolveCacheControl defaultShouldBeCached
              opts.shouldCache opts.cacheControlOverride
              ((env.mimeGetType file).getD "application/octet-stream") path,
            bodyMd5 := h }, ?_, rfl⟩
  simp [Delivery.uploadFile, deliveryConstructor, joinPath_empty_left, hstat,
    hmd5, getS3ObjectETag, hhead, hput, isFileIdentical_none_right]

/-- Witness for C8's amended statement at concrete inputs. -/
theorem deliveryConstructor_total_no_validation_witness :
    deliveryConstructor
        { bucket := some "b", basePath := some "base",
          useAccelerateEndpoint := some true, shouldBeCached := none } =
      { bucket := some "b", basePath := "base", useAccelerateEndpoint := true,
        shouldBeCached := defaultShouldBeCached } ∧
    ∃ out p,
      (deliveryConstructor
          { bucket := none, basePath := none, useAccelerateEndpoint := none,
            shouldBeCached := none }).uploadFile
          (mkStoreEnv statW md5W mtW emptyStore) "f.css" "f.css" {} =
        .ok (out, [p]) ∧ p.Bucket = none :=
  ⟨deliveryConstructor_total_no_validation.1 _,
   deliveryConstructor_total_no_validation.2 (mkStoreEnv statW md5W mtW emptyStore)
     "f.css" "f.css" "" "h1" 5 {} rfl rfl rfl (fun _q => rfl)⟩

/-! ### C10: empty remote listing -/

/-- C10: when the listing for the requested prefix has no contents (an
absent `Contents` field or an empty array), `downloadFiles` dispatches no
download task, returns the empty outcome list, and still emits exactly one
`download:all` event carrying that empty list. -/
theorem downloadFiles_empty_listing
    (d : Delivery) (env : Env) (sched : List Nat) (pfix dir : String)
    (h : env.listObjectsV2 (joinPath d.basePath pfix) = .ok none ∨
         env.listObjectsV2 (joinPath d.basePath pfix) = .ok (some [])) :
    d.downloadFiles env sched pfix dir = .ok ([], [Event.downloadAll []]) := by
  rcases h with h | h <;>
    simp [Delivery.downloadFiles, h, firstErrorIn_nil, filterMap_none_eq_nil]

/-- Witness for C10 at a concrete input. -/
theorem downloadFiles_empty_listing_witness :
    dW.downloadFiles envNF [2, 5] "" "dl" = .ok ([], [Event.downloadAll []]) :=
  downloadFiles_empty_listing dW envNF [2, 5] "" "dl" (Or.inl rfl)

/-! ### C9: directory markers in the remote listing -/

/-- A listing containing only the directory-marker key `"p/"`; the marker
object itself exists but no object exists under the stripped key `"p"`. -/
def envMarkerOnly : Env :=
  { envNF with
    listObjectsV2 := fun _ =>
      .ok (some [{ Key := some "p/", ETag := some "\"e\"" }])
    getObject := fun k =>
      if k == "p/" then .ok k else .error { code := "NoSuchKey" } }

/-- The same marker-only listing, over a store whose every `getObject`
succeeds (an object also exists under the stripped key `"p"`). -/
def envMarkerAndP : Env :=
  { envNF with
    listObjectsV2 := fun _ =>
      .ok (some [{ Key := some "p/", ETag := some "\"e\"" }]) }

/-- C9 counterexample: a listing entry whose key ends in `/` (a directory
marker) is NOT skipped — `path.relative` strips the trailing slash, so the
entry produces a download task for the stripped key `"p"`: against a store
holding only the marker object that task rejects the whole batch with
`NoSuchKey`, and when an object exists under `"p"` the outcome list gains
the element `{Key := "p"}`.  Either way the result differs from the
`.ok ([], [downloadAll []])` a skipped entry would give. -/
theorem downloadFiles_marker_not_skipped :
    dW.downloadFiles envMarkerOnly [0] "" "dl" =
      .error { code := "NoSuchKey" } ∧
    dW.downloadFiles envMarkerAndP [0] "" "dl" =
      .ok ([{ Key := "p", isIdentical := false }],
           [Event.download { Key := "p", isIdentical := false },
            Event.downloadAll [{ Key := "p", isIdentical := false }]]) :=
  ⟨rfl, rfl⟩

/-- C9 amended: `downloadFiles` skips exactly the listing entries whose
`Key` property is absent (they produce no task result and nothing is
pushed).  A key ending in `/` is not skipped: it produces a download task
for its slash-stripped relative form (`relativePath "" "p/" = "p"`), which
fetches that stripped key — rejecting the task (and hence the batch) when
no such object exists, and contributing an outcome element carrying the
stripped key when one does. -/
theorem downloadFiles_skips_only_null_keys :
    (∀ (d : Delivery) (env : Env) (pfix dest : String) (et : Option String),
       d.downloadTask env pfix dest { Key := none, ETag := et } = .ok none) ∧
    (∀ (d : Delivery) (env : Env) (pfix dest k tok m body : String),
       tok ≠ "" →
       env.md5FromFile
           (joinPath dest (relativePath pfix (relativePath d.basePath k))) =
         .error { code := "ENOENT", message := m } →
       env.getObject (joinPath d.basePath (relativePath d.basePath k)) =
         .ok body →
       d.downloadTask env pfix dest { Key := some k, ETag := some tok } =
         .ok (some ({ Key := joinPath d.basePath (relativePath d.basePath k),
                      isIdentical := false },
                    [joinPath d.basePath (relativePath d.basePath k)]))) ∧
    (∀ (d : Delivery) (env : Env) (pfix dest k tok m : String) (e : JsErr),
       tok ≠ "" →
       env.md5FromFile
           (joinPath dest (relativePath pfix (relativePath d.basePath k))) =
         .error { code := "ENOENT", message := m } →
       env.getObject (joinPath d.basePath (relativePath d.basePath k)) =
         .error e →
       d.downloadTask env pfix dest { Key := some k, ETag := some tok } =
         .error e) ∧
    relativePath "" "p/" = "p" := by
  refine ⟨fun d env pfix dest et => rfl, ?_, ?_, rfl⟩
  · intro d env pfix dest k tok m body htok hmd5 hget
    simp [Delivery.downloadTask, Delivery.downloadFile, Except.map, jsTruthyStr,
      bne_iff_ne, htok, hmd5, hget]
  · intro d env pfix dest k tok m e htok hmd5 hget
    simp [Delivery.downloadTask, Delivery.downloadFile, Except.map, jsTruthyStr,
      bne_iff_ne, htok, hmd5, hget]

/-- Witness for C9's amended statement: a null-key entry yields no task
result, while the marker key `"p/"` yields a task for the stripped key
`"p"` — succeeding with an outcome when the object exists and rejecting
with `NoSuchKey` when only the marker does. -/
theorem downloadFiles_skips_only_null_keys_witness :
    dW.downloadTask envMarkerAndP "" "dl" { Key := none, ETag := some "\"e\"" } =
      .ok none ∧
    dW.downloadTask envMarkerAndP "" "dl"
        { Key := some "p/", ETag := some "\"e\"" } =
      .ok (some ({ Key := joinPath dW.basePath (relativePath dW.basePath "p/"),
                   isIdentical := false },
                 [joinPath dW.basePath (relativePath dW.basePath "p/")])) ∧
    dW.downloadTask envMarkerOnly "" "dl"
        { Key := some "p/", ETag := some "\"e\"" } =
      .error { code := "NoSuchKey" } :=
  ⟨downloadFiles_skips_only_null_keys.1 dW envMarkerAndP "" "dl" (some "\"e\""),
   downloadFiles_skips_only_null_keys.2.1 dW envMarkerAndP "" "dl" "p/" "\"e\""
     "" "p" (by decide) rfl rfl,
   downloadFiles_skips_only_null_keys.2.2.1 dW envMarkerOnly "" "dl" "p/"
     "\"e\"" "" _ (by decide) rfl rfl⟩

/-! ### C2: ordering of batch outcomes -/

theorem filterMap_all_isSome_spec (l : List α) (g : α → Option β)
    (h : ∀ x ∈ l, (g x).isSome) :
    (l.filterMap g).length = l.length ∧
      ∀ i : Nat, (l.filterMap g)[i]? = l[i]?.bind g := by
  induction l with
  | nil => exact ⟨rfl, fun i => rfl⟩
  | cons a l ih =>
    obtain ⟨b, hb⟩ := Option.isSome_iff_exists.mp (h a (List.mem_cons_self a l))
    obtain ⟨ihl, ihg⟩ := ih fun x hx => h x (List.mem_cons_of_mem a hx)
    refine ⟨?_, ?_⟩
    · simp [List.filterMap_cons, hb, ihl]
    · intro i
      cases i with
      | zero => simp [List.filterMap_cons, hb]
      | succ j => simp [List.filterMap_cons, hb, ihg j]

theorem filterMap_range_getElem? (l : List α) (g : α → Option β) :
    (List.range l.length).filterMap (fun i => l[i]?.bind g) = l.filterMap g := by
  induction l with
  | nil => rfl
  | cons a l ih =>
    rw [List.length_cons, List.range_succ_eq_map, List.filterMap_cons]
    have hcomp :
        ((List.range l.length).map Nat.succ).filterMap
            (fun i => (a :: l)[i]?.bind g) =
          (List.range l.length).filterMap (fun i => l[i]?.bind g) := by
      rw [List.filterMap_map]
      congr 1
      funext i
      simp
    rw [hcomp, ih]
    cases hga : g a <;> simp [List.filterMap_cons, hga]

theorem sched_filterMap_perm (sched : List Nat) (l : List α) (g : α → Option β)
    (hperm : sched.Perm (List.range l.length)) :
    (sched.filterMap (fun i => l[i]?.bind g)).Perm (l.filterMap g) := by
  have h1 := hperm.filterMap (fun i => l[i]?.bind g)
  rw [filterMap_range_getElem?] at h1
  exact h1

theorem task_ok_of_firstErrorIn_none (sched : List Nat)
    (tasks : List (Except JsErr α)) (hno : firstErrorIn sched tasks = none)
    (t : Except JsErr α) (ht : t ∈ tasks)
    (hcov : ∀ i, i < tasks.length → i ∈ sched) : ∃ v, t = .ok v := by
  obtain ⟨i, hi, rfl⟩ := List.getElem_of_mem ht
  have hmem : i ∈ sched := hcov i hi
  have hfi := List.findSome?_eq_none_iff.mp hno i hmem
  cases he : tasks[i] with
  | ok v => exact ⟨v, rfl⟩
  | error e =>
    rw [List.getElem?_eq_getElem hi, he] at hfi
    exact absurd hfi (by simp)

/-- C2 counterexample data: a listing enumerating keys `"a"` then `"b"`. -/
def envTwo : Env :=
  { envNF with
    listObjectsV2 := fun _ =>
      .ok (some [{ Key := some "a", ETag := some "\"x\"" },
                 { Key := some "b", ETag := some "\"y\"" }]) }

/-- C2 counterexample: the listing enumerates `"a"` (index 0) then `"b"`
(index 1); under the completion order in which task 1 finishes first,
`downloadFiles` returns the outcome for `"b"` as element 0 — the outcome
list follows completion order, not the enumeration order the claim
asserts. -/
theorem downloadFiles_not_listing_order :
    dW.downloadFiles envTwo [1, 0] "" "dl" =
      .ok ([{ Key := "b", isIdentical := false },
            { Key := "a", isIdentical := false }],
           [Event.download { Key := "b", isIdentical := false },
            Event.download { Key := "a", isIdentical := false },
            Event.downloadAll [{ Key := "b", isIdentical := false },
                               { Key := "a", isIdentical := false }]]) ∧
    ({ Key := "b", isIdentical := false } : DownloadOutput) ≠
      { Key := "a", isIdentical := false } :=
  ⟨rfl, by decide⟩

/-- C2 amended: `uploadFiles` (which collects through `Promise.all`'s
positional result array) returns the i-th enumerated file's outcome at
position i regardless of the completion schedule; `downloadFiles` (which
collects through `push` at each task's completion) returns the outcomes in
completion order — a permutation of the enumeration-ordered outcomes that
coincides with enumeration order only when tasks complete in dispatch
order. -/
theorem batch_outcome_order :
    (∀ (d : Delivery) (env : Env) (sched : List Nat) (files : List FileEntry)
       (pfix : String) (opts : UploadOptions),
       firstErrorIn sched (d.uploadTasks env files pfix opts) = none →
       (∀ i, i < files.length → i ∈ sched) →
       ∃ outs evs, d.uploadFiles env sched files pfix opts = .ok (outs, evs) ∧
         outs.length = files.length ∧
         ∀ i : Nat, outs[i]? =
           (d.uploadTasks env files pfix opts)[i]?.bind uploadOutcome?) ∧
    (∀ (d : Delivery) (env : Env) (sched : List Nat) (pfix dir : String)
       (contents : List S3Object),
       env.listObjectsV2 (joinPath d.basePath pfix) = .ok (some contents) →
       firstErrorIn sched
           (contents.map (d.downloadTask env pfix (resolvePath dir))) = none →
       sched.Perm (List.range contents.length) →
       ∃ outs evs, d.downloadFiles env sched pfix dir = .ok (outs, evs) ∧
         outs.Perm ((contents.map
             (d.downloadTask env pfix (resolvePath dir))).filterMap
           downloadOutcome?) ∧
         (sched = List.range contents.length →
           outs = (contents.map
               (d.downloadTask env pfix (resolvePath dir))).filterMap
             downloadOutcome?)) := by
  constructor
  · intro d env sched files pfix opts hno hcov
    have hlen : (d.uploadTasks env files pfix opts).length = files.length :=
      List.length_map _ _
    have hok : ∀ t ∈ d.uploadTasks env files pfix opts, (uploadOutcome? t).isSome := by
      intro t ht
      obtain ⟨v, rfl⟩ :=
        task_ok_of_firstErrorIn_none sched _ hno t ht (by rw [hlen]; exact hcov)
      rfl
    obtain ⟨hl, hg⟩ := filterMap_all_isSome_spec _ uploadOutcome? hok
    have hrun : d.uploadFiles env sched files pfix opts =
        .ok ((d.uploadTasks env files pfix opts).filterMap uploadOutcome?,
             (sched.filterMap fun i =>
                ((d.uploadTasks env files pfix opts)[i]?.bind
                  uploadOutcome?).map UpEvent.upload) ++
               [UpEvent.uploadAll
                 ((d.uploadTasks env files pfix opts).filterMap uploadOutcome?)]) := by
      simp only [Delivery.uploadFiles, hno]
    exact ⟨_, _, hrun, hl.trans hlen, hg⟩
  · intro d env sched pfix dir contents hlist hno hperm
    have hlen : (contents.map (d.downloadTask env pfix (resolvePath dir))).length =
        contents.length := List.length_map _ _
    have hrun : d.downloadFiles env sched pfix dir =
        .ok (sched.filterMap fun i =>
               (contents.map (d.downloadTask env pfix (resolvePath dir)))[i]?.bind
                 downloadOutcome?,
             ((sched.filterMap fun i =>
                (contents.map (d.downloadTask env pfix (resolvePath dir)))[i]?.bind
                  downloadOutcome?).map Event.download) ++
               [Event.downloadAll (sched.filterMap fun i =>
                 (contents.map (d.downloadTask env pfix (resolvePath dir)))[i]?.bind
                   downloadOutcome?)]) := by
      simp only [Delivery.downloadFiles, hlist, Option.getD_some, hno]
    refine ⟨_, _, hrun, ?_, ?_⟩
    · exact sched_filterMap_perm sched _ downloadOutcome? (by rw [hlen]; exact hperm)
    · intro hsched
      rw [hsched, ← hlen]
      exact filterMap_range_getElem? _ downloadOutcome?

/-- Two concrete files for the upload-batch witness. -/
def filesW : List FileEntry :=
  [{ file := "a.css", dest := "a.css" }, { file := "b.css", dest := "b.css" }]

/-- The two-entry listing used by the download-batch witnesses. -/
def contentsW : List S3Object :=
  [{ Key := some "a", ETag := some "\"x\"" },
   { Key := some "b", ETag := some "\"y\"" }]

/-- Witness for C2's amended statement at concrete inputs with completion
order `[1, 0]`. -/
theorem batch_outcome_order_witness :
    (∃ outs evs,
       dW.uploadFiles (mkStoreEnv statW md5W mtW emptyStore) [1, 0] filesW ""
           {} = .ok (outs, evs) ∧
       outs.length = filesW.length ∧
       ∀ i : Nat, outs[i]? =
         (dW.uploadTasks (mkStoreEnv statW md5W mtW emptyStore) filesW ""
             {})[i]?.bind uploadOutcome?) ∧
    (∃ outs evs, dW.downloadFiles envTwo [1, 0] "" "dl" = .ok (outs, evs) ∧
       outs.Perm ((contentsW.map
           (dW.downloadTask envTwo "" (resolvePath "dl"))).filterMap
         downloadOutcome?) ∧
       ([1, 0] = List.range contentsW.length →
         outs = (contentsW.map
             (dW.downloadTask envTwo "" (resolvePath "dl"))).filterMap
           downloadOutcome?)) :=
  ⟨batch_outcome_order.1 dW (mkStoreEnv statW md5W mtW emptyStore) [1, 0]
     filesW "" {} rfl (by decide),
   batch_outcome_order.2 dW envTwo [1, 0] "" "dl" contentsW rfl rfl (by decide)⟩

/-! ### C7: error propagation -/

/-- C7: the first rejection (in completion order) of any per-file task of a
batch call rejects the whole call — no partial outcome list is returned —
and a single-file operation surfaces a collaborator error directly and
unchanged (here: a failing `putObject` rejects `uploadFile` with the very
same error). -/
theorem batch_first_error_rejects :
    (∀ (d : Delivery) (env : Env) (sched : List Nat) (files : List FileEntry)
       (pfix : String) (opts : UploadOptions) (e : JsErr),
       firstErrorIn sched (d.uploadTasks env files pfix opts) = some e →
       d.uploadFiles env sched files pfix opts = .error e) ∧
    (∀ (d : Delivery) (env : Env) (sched : List Nat) (pfix dir : String)
       (contents? : Option (List S3Object)) (e : JsErr),
       env.listObjectsV2 (joinPath d.basePath pfix) = .ok contents? →
       firstErrorIn sched ((contents?.getD []).map
           (d.downloadTask env pfix (resolvePath dir))) = some e →
       d.downloadFiles env sched pfix dir = .error e) ∧
    (∀ (d : Delivery) (env : Env) (file path m h : String) (sz : Nat)
       (opts : UploadOptions) (e : JsErr),
       env.stat file = .ok sz → env.md5FromFile file = .ok h →
       env.headObject (joinPath d.basePath path) =
         .error { code := "NotFound", message := m } →
       (∀ q, env.putObject q = .error e) →
       d.uploadFile env file path opts = .error e) := by
  refine ⟨?_, ?_, ?_⟩
  · intro d env sched files pfix opts e hfe
    simp only [Delivery.uploadFiles, hfe]
  · intro d env sched pfix dir contents? e hlist hfe
    simp only [Delivery.downloadFiles, hlist, hfe]
  · intro d env file path m h sz opts e hstat hmd5 hhead hput
    simp [Delivery.uploadFile, hstat, hmd5, getS3ObjectETag, hhead, hput,
      isFileIdentical_none_right]

/-- An environment whose store rejects every write. -/
def envPutFail : Env :=
  { mkStoreEnv statW md5W mtW emptyStore with
    putObject := fun _ => .error { code := "InternalError" } }

/-- An environment whose listing returns one entry but whose object
fetches fail. -/
def envGetFail : Env :=
  { envNF with
    listObjectsV2 := fun _ =>
      .ok (some [{ Key := some "a", ETag := some "\"x\"" }])
    getObject := fun _ => .error { code := "NoSuchKey" } }

/-- Witness for C7 at concrete inputs. -/
theorem batch_first_error_rejects_witness :
    dW.uploadFiles envPutFail [0, 1] filesW "" {} =
      .error { code := "InternalError" } ∧
    dW.downloadFiles envGetFail [0] "" "dl" =
      .error { code := "NoSuchKey" } ∧
    dW.uploadFile envPutFail "a.css" "a.css" {} =
      .error { code := "InternalError" } :=
  ⟨batch_first_error_rejects.1 dW envPutFail [0, 1] filesW "" {} _ rfl,
   batch_first_error_rejects.2.1 dW envGetFail [0] "" "dl"
     (some [{ Key := some "a", ETag := some "\"x\"" }]) _ rfl rfl,
   batch_first_error_rejects.2.2 dW envPutFail "a.css" "a.css" "" "h1" 5 {} _
     rfl rfl rfl (fun _q => rfl)⟩
